import Mathlib

/-!
Verification development for the service-worker cache core of the
audioserve web client (cache controllers module plus the queue and helper
functions it uses).

The module is modelled by a shallow embedding: promise chains are run to
settlement sequentially, the environment (network fetch outcomes, cache
open and put outcomes) is passed in explicitly, and every observable side
effect (final request queue, final cache store, broadcast messages, network
fetches issued) is returned in a result record.

Conventions of the embedding:
  - a JS `AbortController` is identified by a numeric id; invoking the
    cancellation handle of an entry is recorded by putting its id in the
    returned list of aborted ids;
  - a `Response` is its observable data: status, url, Content-Type,
    Content-Range header (when synthesized) and body bytes;
  - the cache store is the list of (key, response) records in insertion
    order, as exposed by `cache.keys()`;
  - a rejected promise / thrown value is an explicit alternative of
    `FetchOutcome`, and booleans in the environment say whether
    `caches.open` and `cache.put` succeed.
-/

/-- Result of the regex `bytes=(\d+)-?(\d+)?` applied to a Range header:
`start` is the first capture group, `stop` is the optional second group
(`none` when the group is absent; the digit string "0" is a non-empty,
hence truthy, string, so `bytes=0-0` parses to `stop = some 0`). -/
structure RangeSpec where
  start : Nat
  stop : Option Nat
deriving DecidableEq

/-- Observable data of a JS `Response`. -/
structure Response where
  status : Nat
  url : String
  contentType : String
  contentRange : Option String
  body : List Nat
deriving DecidableEq

/-- Truthiness of a JS value of type `number | undefined`:
`undefined` and `0` are falsy, every other number is truthy. -/
def jsTruthy : Option Nat → Bool
  | none => false
  | some n => n != 0

/-- Blob.slice bytes: `blobSlice body s none` models `body.slice(s)` and
`blobSlice body s (some e)` models `body.slice(s, e)`; out-of-range
positions are clamped, never an error. -/
def blobSlice (body : List Nat) (start : Nat) (stop : Option Nat) : List Nat :=
  match stop with
  | none => body.drop start
  | some e => (body.take e).drop start

/-- Modelled from the spec: the URL-normalization utility `removeQuery`
(imported from the util index module, whose source is not part of this
repository snapshot) "strips query parameters"; modelled as keeping the
characters before the first question mark. -/
def removeQuery (url : String) : String :=
  (url.toList.takeWhile (fun c => c != '?')).asString

/-- Translation of `buildResponse(originalResponse, range)`: with no range
header the original response is returned unchanged; with a parsed range it
synthesizes a 206 partial-content response whose body is
`body.slice(start, end ? end + 1 : undefined)` and whose Content-Range
header is built with the falsy-sensitive expression `end ? end : size - 1`.
The size arithmetic of the header is done in `Int`, as JS numbers are
signed. -/
def buildResponse (originalResponse : Response) (range : Option RangeSpec) : Response :=
  match range with
  | none => originalResponse
  | some r =>
    let body := originalResponse.body
    let size : Int := body.length
    let rangeEnd : Int := if jsTruthy r.stop then (r.stop.getD 0 : Int) else size - 1
    { status := 206
      url := ""
      contentType := originalResponse.contentType
      contentRange := some ("bytes " ++ toString r.start ++ "-" ++
        toString rangeEnd ++ "/" ++ toString size)
      body := blobSlice body r.start
        (if jsTruthy r.stop then some (r.stop.getD 0 + 1) else none) }

/-- Translation of `cache.delete(key)`: `true` and the store without the
record when a record with that key exists, `false` and the unchanged store
otherwise. -/
def cacheDelete (store : List (String × Response)) (key : String) :
    Bool × List (String × Response) :=
  if store.any (fun e => e.1 == key) then
    (true, store.filter (fun e => e.1 != key))
  else
    (false, store)

/-- Translation of the `for (const key of deleteList.reverse())` loop body
of `evictCache`: each key is deleted and, when the deletion reports success,
the onDelete callback fires with it; the list of callback arguments is
accumulated in call order. -/
def evictLoop (store : List (String × Response)) (calls : List String) :
    List String → List String × List (String × Response)
  | [] => (calls, store)
  | key :: rest =>
    let r := cacheDelete store key
    evictLoop r.2 (if r.1 then calls ++ [key] else calls) rest

/-- Translation of `evictCache(cache, sizeLimit, onDelete)`: reads the keys
in insertion order, computes `toDelete = keys.length - sizeLimit` (a JS
number, possibly negative, hence `Int`), and when positive deletes the
first `toDelete` keys, iterating over that prefix reversed. Returns the
onDelete call list (in call order) and the final store. -/
def evictCache (store : List (String × Response)) (sizeLimit : Nat) :
    List String × List (String × Response) :=
  let keys := store.map Prod.fst
  let toDelete : Int := (keys.length : Int) - (sizeLimit : Int)
  if toDelete > 0 then
    let deleteList := keys.take toDelete.toNat
    evictLoop store [] deleteList.reverse
  else ([], store)

/-- Translation of `cache.match(url)`: first record whose key equals the
request URL. -/
def cacheMatch (store : List (String × Response)) (url : String) : Option Response :=
  (store.find? (fun e => e.1 == url)).map (fun e => e.2)

/-- Translation of `cache.put(key, resp)`: replaces any record under the
key and appends the new record. -/
def cachePut (store : List (String × Response)) (key : String) (resp : Response) :
    List (String × Response) :=
  (store.filter (fun e => e.1 != key)) ++ [(key, resp)]

/-- Translation of the `FetchQueueItem` class; `abortId` identifies the
entry's `AbortController`, and an `isDirect` argument left `undefined` in
JS is falsy, modelled as `false`. -/
structure FetchQueueItem where
  url : String
  abortId : Nat
  isDirect : Bool
  folderPosition : Option Nat
deriving DecidableEq

/-- Kinds of the `CacheMessageKind` enum that this module broadcasts. -/
inductive CacheMessageKind where
  | ActualCached
  | PrefetchCached
  | Skipped
  | Deleted
  | PrefetchError
deriving DecidableEq

/-- Observable data of a broadcast status message: kind, the normalized
cached URL, the original URL, and whether an error payload is attached. -/
structure CacheMsg where
  kind : CacheMessageKind
  cachedUrl : String
  originalUrl : String
  hasError : Bool
deriving DecidableEq

/-- Outcome of a network `fetch`: a fulfilled response, or a rejection
(transport error or abort, distinguished only in logging). -/
inductive FetchOutcome where
  | ok (resp : Response)
  | err
deriving DecidableEq

namespace AudioCache

/-- Translation of `AudioCache.has(url)`: `findIndex >= 0` on the queue. -/
def has (queue : List FetchQueueItem) (url : String) : Bool :=
  (queue.findIdx? (fun i => i.url == url)).isSome

/-- Translation of `AudioCache.add(url, abort, isDirect, folderPosition)`:
when `isDirect` is set, every queued item marked direct has its
cancellation handle invoked first; then the new item is pushed. Returns
the new queue and the ids of the invoked handles. -/
def add (queue : List FetchQueueItem) (url : String) (abortId : Nat)
    (isDirect : Bool) (folderPosition : Option Nat) :
    List FetchQueueItem × List Nat :=
  let aborted :=
    if isDirect then (queue.filter (fun i => i.isDirect)).map (fun i => i.abortId)
    else []
  (queue ++ [⟨url, abortId, isDirect, folderPosition⟩], aborted)

/-- Translation of `AudioCache.delete(url)`: `findIndex` then `splice` when
found, no-op when absent. -/
def delete (queue : List FetchQueueItem) (url : String) : List FetchQueueItem :=
  match queue.findIdx? (fun i => i.url == url) with
  | some idx => queue.eraseIdx idx
  | none => queue

end AudioCache

/-- Intercepted request data used by `AudioCache.handleRequest`: the URL,
the parsed `Range` header (`none` when absent or empty, both falsy), and
the numeric value of the `X-Folder-Position` header (`none` when the
header is absent or does not parse to a number). -/
structure Request where
  url : String
  rangeHeader : Option RangeSpec
  folderPos : Option Nat
deriving DecidableEq

/-- Environment of one `AudioCache.handleRequest` invocation: whether
`caches.open` succeeds, the outcome of the main (cloned, range-stripped)
fetch, the outcome of the passthrough `fetch(evt.request)`, whether
`cache.put` succeeds, and the id of the freshly constructed
`AbortController`. -/
structure ReqEnv where
  openOk : Bool
  fetchOutcome : FetchOutcome
  passOutcome : FetchOutcome
  putOk : Bool
  abortId : Nat
deriving DecidableEq

/-- All observables of one `AudioCache.handleRequest` invocation after
every chained promise has settled. -/
structure ReqResult where
  response : Response
  queue : List FetchQueueItem
  store : List (String × Response)
  broadcasts : List CacheMsg
  fetched : List String
deriving DecidableEq

/-- Synthetic response of the top-level catch of
`AudioCache.handleRequest` (`new Response("Service Worker Cache Error",
{status: 555})`). -/
def serviceWorkerErrorResponse : Response :=
  { status := 555, url := "", contentType := "", contentRange := none, body := [] }

/-- Broadcast sent by the eviction onDelete callbacks of the audio cache:
kind Deleted, with both URLs the deleted key. -/
def deletedMsg (key : String) : CacheMsg :=
  { kind := .Deleted, cachedUrl := key, originalUrl := key, hasError := false }

namespace AudioCache

/-- Translation of `AudioCache.handleRequest(evt)` with every promise run
to settlement. Cache hit: serve the range-synthesized cached response.
Miss with the normalized key already queued: pass the request through to
the network unrecorded. Miss and not queued: register a direct queue
entry (cancelling prior direct entries), fetch the full resource, and on
fulfilment store it, broadcast ActualCached, evict (broadcasting Deleted
per evicted key) and only then remove the queue entry; the put chain has
its own catch, so a put failure still reaches the removal. A rejected
fetch, however, propagates to the top-level catch, which serves the
synthetic 555 response without removing the queue entry. A failed
`caches.open` also lands in the top-level catch. -/
def handleRequest (queue : List FetchQueueItem) (store : List (String × Response))
    (sizeLimit : Nat) (env : ReqEnv) (request : Request) : ReqResult :=
  if !env.openOk then
    { response := serviceWorkerErrorResponse, queue := queue, store := store
      broadcasts := [], fetched := [] }
  else
    match cacheMatch store request.url with
    | some resp =>
      { response := buildResponse resp request.rangeHeader, queue := queue
        store := store, broadcasts := [], fetched := [] }
    | none =>
      let keyReq := removeQuery request.url
      if has queue keyReq then
        match env.passOutcome with
        | .ok resp =>
          { response := resp, queue := queue, store := store
            broadcasts := [], fetched := [request.url] }
        | .err =>
          { response := serviceWorkerErrorResponse, queue := queue, store := store
            broadcasts := [], fetched := [request.url] }
      else
        let queue1 := (add queue keyReq env.abortId true request.folderPos).1
        match env.fetchOutcome with
        | .err =>
          { response := serviceWorkerErrorResponse, queue := queue1, store := store
            broadcasts := [], fetched := [request.url] }
        | .ok resp =>
          if env.putOk then
            let store1 := cachePut store keyReq resp
            let ev := evictCache store1 sizeLimit
            { response := resp
              queue := delete queue1 keyReq
              store := ev.2
              broadcasts :=
                { kind := .ActualCached, cachedUrl := keyReq
                  originalUrl := resp.url, hasError := false } :: ev.1.map deletedMsg
              fetched := [request.url] }
          else
            { response := resp, queue := delete queue1 keyReq, store := store
              broadcasts := [], fetched := [request.url] }

end AudioCache

/-- Prefetch message data (`msg.data`): target URL and optional folder
position. -/
structure PrefetchMsg where
  url : String
  folderPosition : Option Nat
deriving DecidableEq

/-- Environment of one `AudioCache.handlePrefetch` invocation: the fetch
outcome, whether `caches.open` and `cache.put` succeed, and the id of the
freshly constructed `AbortController`. -/
structure PrefetchEnv where
  fetchOutcome : FetchOutcome
  openOk : Bool
  putOk : Bool
  abortId : Nat
deriving DecidableEq

/-- All observables of one `AudioCache.handlePrefetch` invocation after
settlement (a prefetch serves no response). -/
structure PrefetchResult where
  queue : List FetchQueueItem
  store : List (String × Response)
  broadcasts : List CacheMsg
  fetched : List String
deriving DecidableEq

/-- The `resp.ok` predicate of a fetch response: status in [200, 300). -/
def respOk (resp : Response) : Bool :=
  200 ≤ resp.status && resp.status < 300

namespace AudioCache

/-- Translation of `AudioCache.handlePrefetch(evt)` with every promise run
to settlement. Already-queued key: broadcast Skipped and return without
fetching. Otherwise register a non-direct entry and fetch; on an ok status
store the response, broadcast PrefetchCached and evict (broadcasting
Deleted per evicted key); on a non-ok status broadcast PrefetchError; a
rejected fetch, or a failing open or put inside the fulfilment handler, is
caught and broadcast as PrefetchError. The final `.then` after the catch
always removes the queue entry. -/
def handlePrefetch (queue : List FetchQueueItem) (store : List (String × Response))
    (sizeLimit : Nat) (env : PrefetchEnv) (msg : PrefetchMsg) : PrefetchResult :=
  let keyUrl := removeQuery msg.url
  if has queue keyUrl then
    { queue := queue, store := store
      broadcasts := [{ kind := .Skipped, cachedUrl := keyUrl
                       originalUrl := msg.url, hasError := false }]
      fetched := [] }
  else
    let queue1 := (add queue keyUrl env.abortId false msg.folderPosition).1
    match env.fetchOutcome with
    | .err =>
      { queue := delete queue1 keyUrl, store := store
        broadcasts := [{ kind := .PrefetchError, cachedUrl := keyUrl
                         originalUrl := msg.url, hasError := true }]
        fetched := [msg.url] }
    | .ok resp =>
      if respOk resp then
        if env.openOk && env.putOk then
          let store1 := cachePut store keyUrl resp
          let ev := evictCache store1 sizeLimit
          { queue := delete queue1 keyUrl
            store := ev.2
            broadcasts :=
              { kind := .PrefetchCached, cachedUrl := keyUrl
                originalUrl := resp.url, hasError := false } :: ev.1.map deletedMsg
            fetched := [msg.url] }
        else
          { queue := delete queue1 keyUrl, store := store
            broadcasts := [{ kind := .PrefetchError, cachedUrl := keyUrl
                             originalUrl := msg.url, hasError := true }]
            fetched := [msg.url] }
      else
        { queue := delete queue1 keyUrl, store := store
          broadcasts := [{ kind := .PrefetchError, cachedUrl := keyUrl
                           originalUrl := resp.url, hasError := true }]
          fetched := [msg.url] }

end AudioCache

/-- Environment of one `NetworkFirstCache.handleRequest` invocation. -/
structure NFEnv where
  fetchOutcome : FetchOutcome
  openOk : Bool
  putOk : Bool
deriving DecidableEq

/-- All observables of one `NetworkFirstCache.handleRequest` invocation
after settlement. -/
structure NFResult where
  response : Response
  store : List (String × Response)
  fetched : List String
deriving DecidableEq

/-- Translation of the `errorResponse` closure of the network-first catch
handler: the caught value when it is a `Response` (`e instanceof
Response`), otherwise a synthetic 555 response. -/
def networkFirstErrorResponse : Option Response → Response
  | some r => r
  | none => { status := 555, url := "", contentType := "", contentRange := none
              body := [] }

namespace NetworkFirstCache

/-- Translation of the `.catch` handler of
`NetworkFirstCache.handleRequest`: try the cache for a previous match of
the same request; serve it when found, otherwise (no match, or the cache
failed to open) serve `errorResponse` built from the caught value `e`
(`some resp` when a non-200 response was thrown, `none` for any other
error). -/
def errorFallback (store : List (String × Response)) (openOk : Bool)
    (url : String) (e : Option Response) : Response :=
  if openOk then
    match cacheMatch store url with
    | some resp => resp
    | none => networkFirstErrorResponse e
  else
    networkFirstErrorResponse e

/-- Translation of `NetworkFirstCache.handleRequest(evt)` with every
promise run to settlement. Disabled controller: no interception (`none`).
Otherwise fetch first; a status other than exactly 200 throws the response
into the catch handler. On a 200: open the cache and put a clone (the
put-then-evict chain is a floating promise, so its failure cannot affect
the served response) and serve the live response; a failed open rejects
into the catch handler with a non-Response error. The catch handler is
`errorFallback`. -/
def handleRequest (isEnabled : Bool) (store : List (String × Response))
    (sizeLimit : Nat) (env : NFEnv) (url : String) : Option NFResult :=
  if !isEnabled then none
  else some <|
    match env.fetchOutcome with
    | .ok response =>
      if response.status != 200 then
        { response := errorFallback store env.openOk url (some response)
          store := store, fetched := [url] }
      else if env.openOk then
        if env.putOk then
          let ev := evictCache (cachePut store url response) sizeLimit
          { response := response, store := ev.2, fetched := [url] }
        else
          { response := response, store := store, fetched := [url] }
      else
        { response := errorFallback store env.openOk url none
          store := store, fetched := [url] }
    | .err =>
      { response := errorFallback store env.openOk url none
        store := store, fetched := [url] }

end NetworkFirstCache

/-!
Shared concrete sample data used by witness statements.
-/

/-- Sample stored audio response with a three-byte body. -/
def sampleResponse : Response :=
  { status := 200, url := "u", contentType := "audio/mpeg", contentRange := none,
    body := [1, 2, 3] }

/-- Sample store with three records in insertion order. -/
def sampleStore : List (String × Response) :=
  [("a", sampleResponse), ("b", sampleResponse), ("c", sampleResponse)]

/-- Sample full response with a two-byte body. -/
def twoByteResponse : Response :=
  { status := 200, url := "u", contentType := "audio/mpeg", contentRange := none
    body := [10, 20] }

/-- Sample fetched error response with HTTP status 404. -/
def notFoundResponse : Response :=
  { status := 404, url := "u", contentType := "text/plain", contentRange := none
    body := [] }

/-- Network-first environment whose fetch fulfils with the 404 response. -/
def nf404Env : NFEnv :=
  { fetchOutcome := .ok notFoundResponse, openOk := true, putOk := true }

/-- Key lemma for eviction: running the deletion loop of `evictCache` over
the reversed key list of a prefix `pre` of the store, when all keys are
distinct, deletes exactly `pre` (every `cache.delete` succeeds), appends
the keys of `pre` in reversed order to the onDelete call list, and leaves
exactly the remainder `rest` stored. -/
theorem evictLoop_run (pre : List (String × Response)) :
    ∀ (rest : List (String × Response)) (calls : List String),
    ((pre ++ rest).map Prod.fst).Nodup →
    evictLoop (pre ++ rest) calls ((pre.map Prod.fst).reverse)
      = (calls ++ (pre.map Prod.fst).reverse, rest) := by
  induction pre using List.reverseRecOn with
  | nil => intro rest calls _; simp [evictLoop]
  | append_singleton pre' a ih =>
    intro rest calls h
    have hms : ((pre' ++ [a]) ++ rest).map Prod.fst
        = pre'.map Prod.fst ++ a.1 :: rest.map Prod.fst := by simp
    rw [hms] at h
    obtain ⟨h1, h2, hd⟩ := List.nodup_append.mp h
    have hpre : a.1 ∉ pre'.map Prod.fst := fun hm => hd hm (List.mem_cons_self _ _)
    have hrest : a.1 ∉ rest.map Prod.fst := (List.nodup_cons.mp h2).1
    have h' : ((pre' ++ rest).map Prod.fst).Nodup := by
      rw [List.map_append]
      exact List.nodup_append.mpr ⟨h1, (List.nodup_cons.mp h2).2,
        fun x hx1 hx2 => hd hx1 (List.mem_cons_of_mem _ hx2)⟩
    have hany : (((pre' ++ [a]) ++ rest).any (fun e => e.1 == a.1)) = true := by
      simp
    have hfilter : (((pre' ++ [a]) ++ rest).filter (fun e => e.1 != a.1))
        = pre' ++ rest := by
      rw [List.append_assoc, List.filter_append, List.filter_append]
      have f1 : pre'.filter (fun e => e.1 != a.1) = pre' :=
        List.filter_eq_self.mpr (fun e he => by
          have : e.1 ≠ a.1 := fun hee => hpre (hee ▸ List.mem_map_of_mem Prod.fst he)
          simpa using this)
      have f3 : rest.filter (fun e => e.1 != a.1) = rest :=
        List.filter_eq_self.mpr (fun e he => by
          have : e.1 ≠ a.1 := fun hee => hrest (hee ▸ List.mem_map_of_mem Prod.fst he)
          simpa using this)
      simp [f1, f3]
    have hrev : ((pre' ++ [a]).map Prod.fst).reverse
        = a.1 :: (pre'.map Prod.fst).reverse := by simp
    rw [hrev]
    rw [evictLoop]
    simp only [cacheDelete, hany, if_pos]
    rw [hfilter]
    rw [ih rest (calls ++ [a.1]) h']
    simp

/-- C2: for every store whose ordered key list (oldest first) has length
`n` and pairwise-distinct keys, and every size limit `L`: when `L < n`
(excess `k = n - L > 0`) eviction fires onDelete once for each of the `k`
oldest keys (the call list is exactly that prefix reversed, so its length
is `k` and its members are exactly the `k` oldest keys) and the final
store is exactly the `L` most recent records; when `n ≤ L` nothing is
deleted and onDelete never fires. -/
theorem evictCache_removes_oldest (store : List (String × Response)) (L : Nat)
    (h : (store.map Prod.fst).Nodup) :
    (L < store.length →
      (evictCache store L).1 = ((store.map Prod.fst).take (store.length - L)).reverse ∧
      (evictCache store L).2 = store.drop (store.length - L) ∧
      (evictCache store L).1.length = store.length - L ∧
      (∀ key, key ∈ (evictCache store L).1 ↔
        key ∈ (store.map Prod.fst).take (store.length - L))) ∧
    (store.length ≤ L →
      (evictCache store L).1 = [] ∧ (evictCache store L).2 = store) := by
  constructor
  · intro hL
    have hpos : ((store.map Prod.fst).length : Int) - (L : Int) > 0 := by
      simp only [List.length_map]; omega
    have hkn : (((store.map Prod.fst).length : Int) - (L : Int)).toNat
        = store.length - L := by
      simp only [List.length_map]; omega
    have hnod : (((store.take (store.length - L)) ++ (store.drop (store.length - L))).map
        Prod.fst).Nodup := by
      rw [List.take_append_drop]; exact h
    have hrun := evictLoop_run (store.take (store.length - L))
      (store.drop (store.length - L)) [] hnod
    rw [List.take_append_drop] at hrun
    have hmt : (store.map Prod.fst).take (store.length - L)
        = (store.take (store.length - L)).map Prod.fst := (List.map_take Prod.fst _ _).symm
    have hev : evictCache store L
        = ([] ++ ((store.take (store.length - L)).map Prod.fst).reverse,
           store.drop (store.length - L)) := by
      unfold evictCache
      rw [if_pos hpos, hkn, hmt, hrun]
    rw [hev]
    refine ⟨by rw [List.nil_append, hmt], rfl, ?_, ?_⟩
    · simp only [List.nil_append, List.length_reverse, List.length_map,
        List.length_take]
      omega
    · intro key
      rw [hmt]
      simp
  · intro hL
    have hneg : ¬ (((store.map Prod.fst).length : Int) - (L : Int) > 0) := by
      simp only [List.length_map]; omega
    constructor <;> · unfold evictCache; rw [if_neg hneg]

/-- Witness for C2: a three-record store with limit 1 evicts the two
oldest records, firing onDelete with "b" then "a" and keeping "c". -/
theorem evictCache_removes_oldest_witness :
    (sampleStore.map Prod.fst).Nodup ∧ 1 < sampleStore.length ∧
    (evictCache sampleStore 1).1
      = ((sampleStore.map Prod.fst).take (sampleStore.length - 1)).reverse ∧
    (evictCache sampleStore 1).2 = sampleStore.drop (sampleStore.length - 1) :=
  ⟨by decide, by decide,
    ((evictCache_removes_oldest sampleStore 1 (by decide)).1 (by decide)).1,
    ((evictCache_removes_oldest sampleStore 1 (by decide)).1 (by decide)).2.1⟩

/-- C9: removing a URL that no queue entry carries leaves the queue
unchanged (the findIndex probe yields no index, so nothing is spliced);
the operation is a total function, so it cannot throw. -/
theorem delete_absent_noop (queue : List FetchQueueItem) (url : String)
    (h : ∀ i ∈ queue, i.url ≠ url) :
    AudioCache.delete queue url = queue := by
  unfold AudioCache.delete
  have hn : queue.findIdx? (fun i => i.url == url) = none := by
    rw [List.findIdx?_eq_none_iff]
    intro i hi
    simpa using h i hi
  rw [hn]

/-- Witness for C9: deleting "b" from a queue holding only "a". -/
theorem delete_absent_noop_witness :
    (∀ i ∈ ([⟨"a", 0, true, none⟩] : List FetchQueueItem), i.url ≠ "b") ∧
    AudioCache.delete [⟨"a", 0, true, none⟩] "b" = [⟨"a", 0, true, none⟩] :=
  ⟨by decide, delete_absent_noop _ _ (by decide)⟩

/-- C4: adding a direct entry appends it and invokes the cancellation
handle of every entry currently marked direct and (given that distinct
entries hold distinct handles, as in the code, where each entry gets a
fresh AbortController) of no entry marked non-direct. -/
theorem add_direct_cancels_directs (queue : List FetchQueueItem) (url : String)
    (abortId : Nat) (pos : Option Nat)
    (hids : (queue.map FetchQueueItem.abortId).Nodup) :
    (AudioCache.add queue url abortId true pos).1
      = queue ++ [⟨url, abortId, true, pos⟩] ∧
    (∀ i ∈ queue, i.isDirect = true →
      i.abortId ∈ (AudioCache.add queue url abortId true pos).2) ∧
    (∀ i ∈ queue, i.isDirect = false →
      i.abortId ∉ (AudioCache.add queue url abortId true pos).2) := by
  refine ⟨rfl, ?_, ?_⟩
  · intro i hi hd
    show i.abortId ∈ (queue.filter (fun i => i.isDirect)).map (fun i => i.abortId)
    exact List.mem_map_of_mem _ (List.mem_filter.mpr ⟨hi, hd⟩)
  · intro i hi hd hmem
    have hmem' : i.abortId ∈ (queue.filter (fun i => i.isDirect)).map
        (fun i => i.abortId) := hmem
    obtain ⟨j, hj, hje⟩ := List.mem_map.mp hmem'
    have hjq : j ∈ queue := (List.mem_filter.mp hj).1
    have hjd : j.isDirect = true := (List.mem_filter.mp hj).2
    have : j = i := List.inj_on_of_nodup_map hids hjq hi hje
    rw [this] at hjd
    rw [hjd] at hd
    exact absurd hd (by simp)

/-- Witness for C4: adding a direct entry to a queue with one direct and
one non-direct entry cancels exactly the direct entry. -/
theorem add_direct_cancels_directs_witness :
    ((([⟨"a", 1, true, none⟩, ⟨"b", 2, false, none⟩] : List FetchQueueItem).map
        FetchQueueItem.abortId).Nodup) ∧
    ((∀ i ∈ ([⟨"a", 1, true, none⟩, ⟨"b", 2, false, none⟩] : List FetchQueueItem),
        i.isDirect = true →
        i.abortId ∈ (AudioCache.add [⟨"a", 1, true, none⟩, ⟨"b", 2, false, none⟩]
          "c" 3 true none).2) ∧
      (∀ i ∈ ([⟨"a", 1, true, none⟩, ⟨"b", 2, false, none⟩] : List FetchQueueItem),
        i.isDirect = false →
        i.abortId ∉ (AudioCache.add [⟨"a", 1, true, none⟩, ⟨"b", 2, false, none⟩]
          "c" 3 true none).2)) :=
  ⟨by decide, (add_direct_cancels_directs _ "c" 3 none (by decide)).2⟩

/-- C10: adding a non-direct entry (isDirect false, which also models an
omitted, hence falsy, isDirect argument) invokes no cancellation handle
and its only effect is appending the single new entry at the end, leaving
every pre-existing entry in place unchanged. -/
theorem add_nondirect_frame (queue : List FetchQueueItem) (url : String)
    (abortId : Nat) (pos : Option Nat) :
    (AudioCache.add queue url abortId false pos).2 = [] ∧
    (AudioCache.add queue url abortId false pos).1
      = queue ++ [⟨url, abortId, false, pos⟩] :=
  ⟨rfl, rfl⟩

/-- C5: on a cache miss whose normalized key is already in the request
queue, handleRequest passes the request straight through to the network
and serves that fulfilled response as-is: the queue is unchanged (no entry
added), the store is unchanged (no cache write), and no status event is
broadcast. -/
theorem handleRequest_queued_passthrough (queue : List FetchQueueItem)
    (store : List (String × Response)) (sizeLimit : Nat) (env : ReqEnv)
    (request : Request) (presp : Response)
    (hopen : env.openOk = true)
    (hmiss : cacheMatch store request.url = none)
    (hqueued : AudioCache.has queue (removeQuery request.url) = true)
    (hpass : env.passOutcome = .ok presp) :
    AudioCache.handleRequest queue store sizeLimit env request
      = { response := presp, queue := queue, store := store
          broadcasts := [], fetched := [request.url] } := by
  unfold AudioCache.handleRequest
  simp only [hopen, hmiss, hqueued, hpass, Bool.not_true, Bool.false_eq_true,
    if_false, if_true]

/-- Witness for C5: the request for "a?q" misses the empty cache while key
"a" is queued by a prefetch, so it is passed through unrecorded. -/
theorem handleRequest_queued_passthrough_witness :
    ({ openOk := true, fetchOutcome := .err, passOutcome := .ok sampleResponse,
       putOk := true, abortId := 1 } : ReqEnv).openOk = true ∧
    cacheMatch [] "a?q" = none ∧
    AudioCache.has [⟨"a", 0, false, none⟩] (removeQuery "a?q") = true ∧
    AudioCache.handleRequest [⟨"a", 0, false, none⟩] [] 5
        { openOk := true, fetchOutcome := .err, passOutcome := .ok sampleResponse,
          putOk := true, abortId := 1 }
        { url := "a?q", rangeHeader := none, folderPos := none }
      = { response := sampleResponse, queue := [⟨"a", 0, false, none⟩], store := []
          broadcasts := [], fetched := ["a?q"] } :=
  ⟨rfl, rfl, by decide,
    handleRequest_queued_passthrough _ _ 5 _ _ _ rfl rfl (by decide) rfl⟩

/-- C8: a prefetch whose normalized key is already queued broadcasts
exactly one Skipped event carrying the key and the original URL and
returns with the queue, the store and the network untouched. -/
theorem handlePrefetch_queued_skips (queue : List FetchQueueItem)
    (store : List (String × Response)) (sizeLimit : Nat) (env : PrefetchEnv)
    (msg : PrefetchMsg)
    (hqueued : AudioCache.has queue (removeQuery msg.url) = true) :
    AudioCache.handlePrefetch queue store sizeLimit env msg
      = { queue := queue, store := store
          broadcasts := [{ kind := .Skipped, cachedUrl := removeQuery msg.url
                           originalUrl := msg.url, hasError := false }]
          fetched := [] } := by
  unfold AudioCache.handlePrefetch
  simp only [hqueued, if_true]

/-- Witness for C8: prefetching "a?q" while key "a" is already queued. -/
theorem handlePrefetch_queued_skips_witness :
    AudioCache.has [⟨"a", 0, false, none⟩] (removeQuery "a?q") = true ∧
    AudioCache.handlePrefetch [⟨"a", 0, false, none⟩] [] 5
        { fetchOutcome := .err, openOk := true, putOk := true, abortId := 1 }
        { url := "a?q", folderPosition := none }
      = { queue := [⟨"a", 0, false, none⟩], store := []
          broadcasts := [{ kind := .Skipped, cachedUrl := removeQuery "a?q"
                           originalUrl := "a?q", hasError := false }]
          fetched := [] } :=
  ⟨by decide, handlePrefetch_queued_skips _ _ 5 _ _ (by decide)⟩

/-- C7: when the network-first fetch fails (rejection, or any fulfilled
status other than exactly 200, which is thrown into the failure path) and
a cached entry exists for the request, handleRequest serves that cached
entry. -/
theorem nf_failure_serves_cached (store : List (String × Response)) (sizeLimit : Nat)
    (env : NFEnv) (url : String) (cached : Response)
    (hfail : env.fetchOutcome = .err ∨
      ∃ r, env.fetchOutcome = .ok r ∧ r.status ≠ 200)
    (hopen : env.openOk = true)
    (hmatch : cacheMatch store url = some cached) :
    (NetworkFirstCache.handleRequest true store sizeLimit env url).map
      NFResult.response = some cached := by
  unfold NetworkFirstCache.handleRequest NetworkFirstCache.errorFallback
  rcases hfail with hf | ⟨r, hf, hr⟩
  · rw [hf]
    simp [hopen, hmatch]
  · rw [hf]
    have hne : (r.status != 200) = true := by simpa using hr
    simp [hne, hopen, hmatch]

/-- Witness for C7: a 404 fetch with a cached record for "u" serves the
cached record. -/
theorem nf_failure_serves_cached_witness :
    (nf404Env.fetchOutcome = .err ∨
      ∃ r, nf404Env.fetchOutcome = .ok r ∧ r.status ≠ 200) ∧
    cacheMatch [("u", sampleResponse)] "u" = some sampleResponse ∧
    (NetworkFirstCache.handleRequest true [("u", sampleResponse)] 1000 nf404Env
        "u").map NFResult.response = some sampleResponse :=
  ⟨Or.inr ⟨notFoundResponse, rfl, by decide⟩, rfl,
    nf_failure_serves_cached _ 1000 _ "u" _
      (Or.inr ⟨notFoundResponse, rfl, by decide⟩) rfl rfl⟩

/-- Counterexample to C6: a network-first fetch that fulfils with status
404 while the cache has no prior entry is served with status 404 (the
thrown 404 response itself, passed through by the catch handler), not with
the synthetic status 555 the claim states. -/
theorem nf_404_not_555_counterexample :
    ((NetworkFirstCache.handleRequest true [] 1000 nf404Env
        "u").map (fun r => r.response.status) = some 404) ∧
    ((NetworkFirstCache.handleRequest true [] 1000 nf404Env
        "u").map (fun r => r.response.status) ≠ some 555) :=
  ⟨rfl, by decide⟩

/-- C6 as amended: when the network-first fetch fulfils with status 404
and no cached entry exists for the request, handleRequest serves the
original 404 response itself (the `errorResponse` closure passes a thrown
`Response` through unchanged; the synthetic 555 response is used only when
the caught failure is not an HTTP response object). -/
theorem nf_404_no_cache_passes_through (store : List (String × Response))
    (sizeLimit : Nat) (env : NFEnv) (url : String) (r : Response)
    (hf : env.fetchOutcome = .ok r)
    (hs : r.status = 404)
    (hmiss : cacheMatch store url = none) :
    (NetworkFirstCache.handleRequest true store sizeLimit env url).map
      NFResult.response = some r := by
  have hne : (r.status != 200) = true := by simp [hs]
  unfold NetworkFirstCache.handleRequest NetworkFirstCache.errorFallback
  rw [hf]
  cases hopen : env.openOk <;>
    simp [hne, hmiss, networkFirstErrorResponse]

/-- Witness for amended C6: a 404 fetch against an empty cache serves the
404 response itself. -/
theorem nf_404_no_cache_passes_through_witness :
    nf404Env.fetchOutcome = .ok notFoundResponse ∧
    notFoundResponse.status = 404 ∧
    cacheMatch [] "u" = none ∧
    (NetworkFirstCache.handleRequest true [] 1000 nf404Env
        "u").map NFResult.response = some notFoundResponse :=
  ⟨rfl, rfl, rfl, nf_404_no_cache_passes_through [] 1000 _ "u" _ rfl rfl rfl⟩

/-- Counterexample to C3: for the range header `bytes=0-0` over a two-byte
body, the claim demands Content-Range `bytes 0-0/2` and a one-byte body,
but the code treats the given end 0 as absent (JS zero is falsy in
`end ? end + 1 : undefined` and `end ? end : size - 1`), producing
Content-Range `bytes 0-1/2` and the full two-byte body. -/
theorem buildResponse_end_zero_counterexample :
    (buildResponse twoByteResponse
        (some { start := 0, stop := some 0 })).contentRange = some "bytes 0-1/2" ∧
    (some "bytes 0-1/2" : Option String) ≠ some "bytes 0-0/2" ∧
    (buildResponse twoByteResponse
        (some { start := 0, stop := some 0 })).body = [10, 20] ∧
    ([10, 20] : List Nat).length ≠ 0 - 0 + 1 :=
  ⟨rfl, by decide, rfl, by decide⟩

/-- C3 as amended: for every full response and range `bytes=S-E` with
`E ≥ 1` (a given end of 0 is treated as absent by the falsy check), the
synthesized response has status 206, the original Content-Type, header
`Content-Range: bytes S-E/N` with `N` the full body length, and as body
the clamped byte slice `[S, E+1)` of the full body, whose length is
`E-S+1` in the in-bounds case `S ≤ E < N`. -/
theorem buildResponse_range_spec (orig : Response) (s e : Nat) (he : 1 ≤ e) :
    (buildResponse orig (some { start := s, stop := some e })).status = 206 ∧
    (buildResponse orig (some { start := s, stop := some e })).contentType
      = orig.contentType ∧
    (buildResponse orig (some { start := s, stop := some e })).contentRange
      = some ("bytes " ++ toString s ++ "-" ++ toString (e : Int) ++ "/"
          ++ toString (orig.body.length : Int)) ∧
    (buildResponse orig (some { start := s, stop := some e })).body
      = (orig.body.take (e + 1)).drop s ∧
    (s ≤ e → e < orig.body.length →
      (buildResponse orig (some { start := s, stop := some e })).body.length
        = e - s + 1) := by
  have ht : jsTruthy (some e) = true := by
    simp only [jsTruthy, bne_iff_ne, ne_eq, decide_eq_true_eq]
    omega
  have hbr : buildResponse orig (some { start := s, stop := some e })
      = { status := 206, url := "", contentType := orig.contentType
          contentRange := some ("bytes " ++ toString s ++ "-" ++ toString (e : Int)
            ++ "/" ++ toString (orig.body.length : Int))
          body := (orig.body.take (e + 1)).drop s } := by
    simp [buildResponse, blobSlice, ht]
  rw [hbr]
  refine ⟨rfl, rfl, rfl, rfl, ?_⟩
  intro hse hen
  simp only [List.length_drop, List.length_take]
  omega

/-- Witness for amended C3: `bytes=1-1` over a three-byte body yields
status 206, Content-Range `bytes 1-1/3` and the single middle byte. -/
theorem buildResponse_range_spec_witness :
    1 ≤ 1 ∧
    (buildResponse sampleResponse (some { start := 1, stop := some 1 })).status
      = 206 ∧
    (buildResponse sampleResponse (some { start := 1, stop := some 1 })).contentRange
      = some "bytes 1-1/3" ∧
    (buildResponse sampleResponse (some { start := 1, stop := some 1 })).body
      = [2] ∧
    (buildResponse sampleResponse (some { start := 1, stop := some 1 })).body.length
      = 1 :=
  ⟨by decide,
    (buildResponse_range_spec sampleResponse 1 1 (by decide)).1,
    (buildResponse_range_spec sampleResponse 1 1 (by decide)).2.2.1,
    (buildResponse_range_spec sampleResponse 1 1 (by decide)).2.2.2.1,
    (buildResponse_range_spec sampleResponse 1 1 (by decide)).2.2.2.2
      (by decide) (by decide)⟩

/-- C1, failing input: a handleRequest invocation that registers a queue
entry (cache miss, key "a" not queued) whose network fetch then rejects
(abort or transport error). The rejection propagates past the fulfilment
handler that contains the only `delete(keyReq)` call of this path, and the
top-level catch serves the 555 response without removing the entry: after
everything settles the queue still contains the entry for "a", so the
entry is leaked, contradicting the claim (and the stated intent of the
specification, which calls queue-entry leakage on error a correctness
bug). -/
theorem handleRequest_fetch_error_leaks_queue_entry :
    AudioCache.handleRequest [] [] 5
        { openOk := true, fetchOutcome := .err, passOutcome := .err,
          putOk := true, abortId := 0 }
        { url := "a?q", rangeHeader := none, folderPos := none }
      = { response := serviceWorkerErrorResponse
          queue := [{ url := "a", abortId := 0, isDirect := true,
                      folderPosition := none }]
          store := [], broadcasts := [], fetched := ["a?q"] } ∧
    AudioCache.has (AudioCache.handleRequest [] [] 5
        { openOk := true, fetchOutcome := .err, passOutcome := .err,
          putOk := true, abortId := 0 }
        { url := "a?q", rangeHeader := none, folderPos := none }).queue "a"
      = true :=
  ⟨by decide, by decide⟩
